import Mathlib

/-!
Verification of the `pointer-value-pair` crate (src/pair.rs and src/cow.rs).

The crate packs a small integer value into the low alignment bits of a raw
pointer (`PointerValuePair<T>`), and builds a pointer-sized borrow-or-own
container (`Cow<'a, T>`) on top of it.

Embedding conventions:
* A Rust pointee type `T` is represented by its alignment exponent `k`:
  Rust guarantees `mem::align_of::<T>()` is a power of two, so
  `align_of::<T>() = 2 ^ k`.
* `usize` values (addresses and packed representations) are natural numbers;
  the target is a 64-bit platform, so `usize` arithmetic is arithmetic on
  naturals below `2 ^ USIZE_BITS` and the bitwise-not of `usize` is
  subtraction from `2 ^ USIZE_BITS - 1`.
* A `*const [T]` fat pointer is a pair `(data address, length)`.
* A Rust `panic!` (the `assert!` in `new` / `new_slice`) is modelled as
  `Except.error` carrying the data interpolated into the panic message
  (`available_bits()` and the offending value).
* Heap effects of the `Cow` container (`Box::new`, `Box::from_raw`/drop,
  `T::clone`) are modelled as an explicit event trace; the allocator is an
  abstract function `alloc : Nat → Nat` giving the address returned by the
  i-th allocation, threaded through by an allocation counter.
-/

/-- Pointer width of the target platform: `usize` is 64 bits. -/
def USIZE_BITS : Nat := 64

/-- `mem::align_of::<T>()` for a type with alignment exponent `k`. -/
def alignment (k : Nat) : Nat := 2 ^ k

/-- Bitwise complement on `usize` (valid for arguments below `2 ^ USIZE_BITS`). -/
def usize_not (x : Nat) : Nat := 2 ^ USIZE_BITS - 1 - x

/-- `const fn align_bits<T>() -> usize { mem::align_of::<T>() - 1 }`:
bitmask of the zero low bits of `*const T` pointers. -/
def align_bits (k : Nat) : Nat := alignment k - 1

/-- Fuel-driven binary popcount; with fuel `f ≥ n` it computes the number of
ones in the binary representation of `n` (the fuel only bounds the number of
halving steps, which is at most `n`). -/
def count_ones_fuel : Nat → Nat → Nat
  | _, 0 => 0
  | 0, _ + 1 => 0
  | fuel + 1, m + 1 => (m + 1) % 2 + count_ones_fuel fuel ((m + 1) / 2)

/-- `usize::count_ones`: the number of ones in the binary representation. -/
def count_ones (n : Nat) : Nat := count_ones_fuel n n

/-- Data of the panic raised by the `assert!` in `PointerValuePair::new` /
`new_slice`: the message
"not enough alignment bits ({bits}) to store the value ({offending})"
reports `Self::available_bits()` and the rejected value. -/
structure PanicInfo where
  bits : Nat
  offending : Nat
deriving DecidableEq, Repr

/-- `PointerValuePair<T>` for a sized pointee: a single `usize`-sized
representation word `pv` (the tagged pointer). -/
structure PointerValuePair where
  pv : Nat
deriving DecidableEq, Repr

namespace PointerValuePair

/-- `PointerValuePair::<T>::available_bits()`:
`align_bits::<T>().count_ones()`. -/
def available_bits (k : Nat) : Nat := count_ones (align_bits k)

/-- `PointerValuePair::<T>::max_value()`: `align_bits::<T>()`. -/
def max_value (k : Nat) : Nat := align_bits k

/-- `PointerValuePair::<T>::new(ptr, value)`: asserts
`value <= align_bits::<T>()` (otherwise panics with `available_bits()` and
the value in the message), then ors the value into the pointer's low bits. -/
def new (k : Nat) (p v : Nat) : Except PanicInfo PointerValuePair :=
  if v ≤ align_bits k then
    .ok ⟨p ||| v⟩
  else
    .error ⟨available_bits k, v⟩

/-- `PointerValuePair::<T>::ptr()`:
`(self.pv as usize & !align_bits::<T>()) as *const T`. -/
def ptr (k : Nat) (s : PointerValuePair) : Nat :=
  s.pv &&& usize_not (align_bits k)

/-- `PointerValuePair::<T>::value()`: `self.pv as usize & align_bits::<T>()`. -/
def value (k : Nat) (s : PointerValuePair) : Nat :=
  s.pv &&& align_bits k

end PointerValuePair

/-- `PointerValuePair<[T]>` for a slice pointee: the representation is a fat
pointer `pv = (data address, element count)`; `k` is the alignment exponent of
the element type `T`. -/
structure PointerValuePairSlice where
  pv : Nat × Nat
deriving DecidableEq, Repr

namespace PointerValuePairSlice

/-- `PointerValuePair::<[T]>::available_bits()`:
`align_bits::<T>().count_ones()`. -/
def available_bits (k : Nat) : Nat := count_ones (align_bits k)

/-- `PointerValuePair::<[T]>::max_value()`: `align_bits::<T>()`. -/
def max_value (k : Nat) : Nat := align_bits k

/-- `PointerValuePair::<[T]>::new_slice(ptr, value)`: asserts
`value <= align_bits::<T>()`, reads the length out of the fat pointer, ors
the value into the data address, and rebuilds the fat pointer with the same
length (`ptr::slice_from_raw_parts(repr, len)`). -/
def new_slice (k : Nat) (p : Nat × Nat) (v : Nat) : Except PanicInfo PointerValuePairSlice :=
  if v ≤ align_bits k then
    .ok ⟨(p.1 ||| v, p.2)⟩
  else
    .error ⟨available_bits k, v⟩

/-- `PointerValuePair::<[T]>::ptr()`: clears the tag bits of the data address
and rebuilds the fat pointer with the preserved length. -/
def ptr (k : Nat) (s : PointerValuePairSlice) : Nat × Nat :=
  (s.pv.1 &&& usize_not (align_bits k), s.pv.2)

/-- `PointerValuePair::<[T]>::value()`:
`self.pv as *const T as usize & align_bits::<T>()`. -/
def value (k : Nat) (s : PointerValuePairSlice) : Nat :=
  s.pv.1 &&& align_bits k

end PointerValuePairSlice

/-! ## Bit-level helper lemmas -/

theorem two_pow_sub_two_pow (w k : Nat) (hk : k ≤ w) :
    2 ^ w - 2 ^ k = 2 ^ k * (2 ^ (w - k) - 1) := by
  have e : 2 ^ k * 2 ^ (w - k) = 2 ^ w := by
    rw [← pow_add]
    congr 1
    omega
  rw [Nat.mul_sub, Nat.mul_one, e]

theorem land_highmask (w k x : Nat) (hk : k ≤ w) (hx : x < 2 ^ w) :
    x &&& (2 ^ w - 2 ^ k) = 2 ^ k * (x / 2 ^ k) := by
  apply Nat.eq_of_testBit_eq
  intro i
  rw [Nat.testBit_and, two_pow_sub_two_pow w k hk, Nat.testBit_mul_pow_two,
    Nat.testBit_mul_pow_two, Nat.testBit_two_pow_sub_one]
  by_cases hik : k ≤ i
  · have h2 : (x / 2 ^ k).testBit (i - k) = x.testBit i := by
      rw [Nat.testBit_to_div_mod, Nat.testBit_to_div_mod, Nat.div_div_eq_div_mul, ← pow_add]
      have hki : k + (i - k) = i := by omega
      rw [hki]
    by_cases hiw : i < w
    · have h1 : i - k < w - k := by omega
      simp [ge_iff_le, hik, h1, h2]
    · have hx' : x.testBit i = false :=
        Nat.testBit_lt_two_pow (lt_of_lt_of_le hx (Nat.pow_le_pow_right (by norm_num) (by omega)))
      have h1 : ¬ (i - k < w - k) := by omega
      simp [ge_iff_le, hik, h1, h2, hx']
  · simp [ge_iff_le, hik]

theorem aligned_lor_add (k a v : Nat) (ha : a % 2 ^ k = 0) (hv : v < 2 ^ k) :
    a ||| v = a + v := by
  obtain ⟨q, hq⟩ := Nat.dvd_of_mod_eq_zero ha
  subst hq
  rw [← Nat.mul_add_lt_is_or hv q]

theorem lor_land_low (k a v : Nat) (ha : a % 2 ^ k = 0) (hv : v < 2 ^ k) :
    (a ||| v) &&& (2 ^ k - 1) = v := by
  rw [aligned_lor_add k a v ha hv, Nat.and_pow_two_sub_one_eq_mod]
  obtain ⟨q, hq⟩ := Nat.dvd_of_mod_eq_zero ha
  subst hq
  rw [Nat.mul_add_mod]
  exact Nat.mod_eq_of_lt hv

theorem aligned_add_lt (w k a v : Nat) (hk : k ≤ w) (ha : a % 2 ^ k = 0)
    (haw : a < 2 ^ w) (hv : v < 2 ^ k) : a + v < 2 ^ w := by
  obtain ⟨q, hq⟩ := Nat.dvd_of_mod_eq_zero ha
  subst hq
  have e : 2 ^ k * 2 ^ (w - k) = 2 ^ w := by
    rw [← pow_add]
    congr 1
    omega
  rw [← e] at haw ⊢
  have hq2 : q + 1 ≤ 2 ^ (w - k) := Nat.lt_of_mul_lt_mul_left haw
  have h2 : 2 ^ k * (q + 1) ≤ 2 ^ k * 2 ^ (w - k) := Nat.mul_le_mul_left _ hq2
  have h1 : 2 ^ k * (q + 1) = 2 ^ k * q + 2 ^ k := by ring
  omega

theorem lor_land_high (k a v : Nat) (hk : k ≤ USIZE_BITS) (ha : a % 2 ^ k = 0)
    (haw : a < 2 ^ USIZE_BITS) (hv : v < 2 ^ k) :
    (a ||| v) &&& (2 ^ USIZE_BITS - 2 ^ k) = a := by
  rw [aligned_lor_add k a v ha hv,
    land_highmask USIZE_BITS k (a + v) hk (aligned_add_lt USIZE_BITS k a v hk ha haw hv)]
  obtain ⟨q, hq⟩ := Nat.dvd_of_mod_eq_zero ha
  subst hq
  rw [Nat.mul_add_div (Nat.pos_pow_of_pos k (by norm_num)), Nat.div_eq_of_lt hv, Nat.add_zero]

/-- The `usize` complement of `align_bits k` is the mask of the high bits. -/
theorem usize_not_align_bits (k : Nat) :
    usize_not (align_bits k) = 2 ^ USIZE_BITS - 2 ^ k := by
  have h : 1 ≤ 2 ^ k := Nat.one_le_two_pow
  simp only [usize_not, align_bits, alignment]
  omega

/-- Unpacking the value after a successful pack recovers the value. -/
theorem value_pack (k a v : Nat) (ha : a % 2 ^ k = 0) (hv : v < 2 ^ k) :
    PointerValuePair.value k ⟨a ||| v⟩ = v := by
  simp only [PointerValuePair.value, align_bits, alignment]
  exact lor_land_low k a v ha hv

/-- Unpacking the pointer after a successful pack recovers the address. -/
theorem ptr_pack (k a v : Nat) (hk : k ≤ USIZE_BITS) (ha : a % 2 ^ k = 0)
    (haw : a < 2 ^ USIZE_BITS) (hv : v < 2 ^ k) :
    PointerValuePair.ptr k ⟨a ||| v⟩ = a := by
  simp only [PointerValuePair.ptr, usize_not_align_bits k]
  exact lor_land_high k a v hk ha haw hv

/-- A tag below the alignment fits below `2 ^ k`. -/
theorem le_max_value_lt (k v : Nat) (hv : v ≤ align_bits k) : v < 2 ^ k := by
  have h : 1 ≤ 2 ^ k := Nat.one_le_two_pow
  simp only [align_bits, alignment] at hv
  omega

/-! ## C1, C2: round trip and capacity laws -/

/-- C1: for every pointee type (alignment exponent `k`), every address `a`
whose low alignment bits are zero, and every `v` with
`0 ≤ v ≤ max_value`, packing then unpacking round-trips exactly:
`PointerValuePair::new(a, v)` succeeds, its `ptr()` is `a` and its
`value()` is `v`. -/
theorem new_ptr_value_roundtrip (k a v : Nat) (hk : k ≤ USIZE_BITS)
    (ha : a % alignment k = 0) (haw : a < 2 ^ USIZE_BITS)
    (hv : v ≤ PointerValuePair.max_value k) :
    ∃ s, PointerValuePair.new k a v = .ok s
      ∧ PointerValuePair.ptr k s = a ∧ PointerValuePair.value k s = v := by
  have hv' : v ≤ align_bits k := hv
  have hvlt : v < 2 ^ k := le_max_value_lt k v hv'
  have ha' : a % 2 ^ k = 0 := ha
  refine ⟨⟨a ||| v⟩, ?_, ?_, ?_⟩
  · simp [PointerValuePair.new, hv']
  · exact ptr_pack k a v hk ha' haw hvlt
  · exact value_pack k a v ha' hvlt

/-- Witness for C1 at a concrete input: a 16-byte-aligned pointee (`k = 4`),
address `0x100`, value `9`. -/
theorem new_ptr_value_roundtrip_witness :
    4 ≤ USIZE_BITS ∧ 256 % alignment 4 = 0 ∧ 256 < 2 ^ USIZE_BITS
    ∧ 9 ≤ PointerValuePair.max_value 4
    ∧ ∃ s, PointerValuePair.new 4 256 9 = .ok s
        ∧ PointerValuePair.ptr 4 s = 256 ∧ PointerValuePair.value 4 s = 9 :=
  ⟨by decide, by decide, by decide, by decide,
    new_ptr_value_roundtrip 4 256 9 (by decide) (by decide) (by decide) (by decide)⟩

/-- C2: the type-level capacity functions satisfy
`max_value = alignment - 1` and `available_bits = popcount (alignment - 1)`
(for the sized and the slice implementation alike); in particular a
4-byte-aligned pointee (`k = 2`) has `max_value = 3` and
`available_bits = 2`, and a 16-byte-aligned pointee (`k = 4`) has
`max_value = 15` and `available_bits = 4`. -/
theorem capacity_law (k : Nat) :
    PointerValuePair.max_value k = alignment k - 1
    ∧ PointerValuePair.available_bits k = count_ones (alignment k - 1)
    ∧ PointerValuePairSlice.max_value k = alignment k - 1
    ∧ PointerValuePairSlice.available_bits k = count_ones (alignment k - 1)
    ∧ PointerValuePair.max_value 2 = 3 ∧ PointerValuePair.available_bits 2 = 2
    ∧ PointerValuePair.max_value 4 = 15 ∧ PointerValuePair.available_bits 4 = 4 :=
  ⟨rfl, rfl, rfl, rfl, by decide, by decide, by decide, by decide⟩

/-! ## C3: the single checked failure mode -/

/-- C3: constructing a `PointerValuePair` (scalar `new` or slice `new_slice`)
fails if and only if the value exceeds `max_value`; the failure is the
construction-time panic (modelled as `Except.error`) and its message reports
the type's `available_bits()` and the offending value. -/
theorem construction_failure_iff (k p v len : Nat) :
    ((∃ s, PointerValuePair.new k p v = .ok s) ↔ v ≤ PointerValuePair.max_value k)
    ∧ ((∃ s, PointerValuePairSlice.new_slice k (p, len) v = .ok s)
        ↔ v ≤ PointerValuePairSlice.max_value k)
    ∧ (PointerValuePair.max_value k < v →
        PointerValuePair.new k p v = .error ⟨PointerValuePair.available_bits k, v⟩
        ∧ PointerValuePairSlice.new_slice k (p, len) v
            = .error ⟨PointerValuePairSlice.available_bits k, v⟩) := by
  refine ⟨?_, ?_, ?_⟩
  · simp only [PointerValuePair.new, PointerValuePair.max_value]
    by_cases h : v ≤ align_bits k
    · simp [h]
    · simp [h]
  · simp only [PointerValuePairSlice.new_slice, PointerValuePairSlice.max_value]
    by_cases h : v ≤ align_bits k
    · simp [h]
    · simp [h]
  · intro hlt
    have h : ¬ v ≤ align_bits k := by
      simp only [PointerValuePair.max_value] at hlt
      omega
    constructor
    · simp [PointerValuePair.new, h]
    · simp [PointerValuePairSlice.new_slice, h]

/-- Witness for C3 at a concrete input: a 4-byte-aligned pointee (`k = 2`)
rejects value `7`, reporting `available_bits = 2` and the value. -/
theorem construction_failure_iff_witness :
    PointerValuePair.max_value 2 < 7
    ∧ PointerValuePair.new 2 8 7 = .error ⟨PointerValuePair.available_bits 2, 7⟩
    ∧ PointerValuePairSlice.new_slice 2 (8, 5) 7
        = .error ⟨PointerValuePairSlice.available_bits 2, 7⟩ :=
  ⟨by decide, ((construction_failure_iff 2 8 7 5).2.2 (by decide)).1,
    ((construction_failure_iff 2 8 7 5).2.2 (by decide)).2⟩

/-! ## C4: slice round trip and length preservation -/

/-- C4: for the slice specialization, for every element-aligned address,
every length and every valid value, `new_slice` followed by `ptr()`
reconstructs both the original address and the exact original length; and
whenever `new_slice` succeeds (aligned or not), only the address word is
touched: the stored element count equals the input length, both in the
representation and after unpacking. -/
theorem slice_roundtrip (k a len v : Nat) (hk : k ≤ USIZE_BITS)
    (ha : a % alignment k = 0) (haw : a < 2 ^ USIZE_BITS)
    (hv : v ≤ PointerValuePairSlice.max_value k) :
    (∃ s, PointerValuePairSlice.new_slice k (a, len) v = .ok s
      ∧ PointerValuePairSlice.ptr k s = (a, len)
      ∧ PointerValuePairSlice.value k s = v)
    ∧ (∀ q w s, PointerValuePairSlice.new_slice k q w = .ok s →
        s.pv.2 = q.2 ∧ (PointerValuePairSlice.ptr k s).2 = q.2) := by
  have hv' : v ≤ align_bits k := hv
  have hvlt : v < 2 ^ k := le_max_value_lt k v hv'
  have ha' : a % 2 ^ k = 0 := ha
  constructor
  · refine ⟨⟨(a ||| v, len)⟩, ?_, ?_, ?_⟩
    · simp [PointerValuePairSlice.new_slice, hv']
    · simp only [PointerValuePairSlice.ptr, usize_not_align_bits k]
      rw [lor_land_high k a v hk ha' haw hvlt]
    · simp only [PointerValuePairSlice.value, align_bits, alignment]
      exact lor_land_low k a v ha' hvlt
  · intro q w s hs
    simp only [PointerValuePairSlice.new_slice] at hs
    split at hs
    · cases hs
      exact ⟨rfl, rfl⟩
    · cases hs

/-- Witness for C4 at a concrete input: 4-byte-aligned elements (`k = 2`),
address `8`, length `3`, value `1`. -/
theorem slice_roundtrip_witness :
    2 ≤ USIZE_BITS ∧ 8 % alignment 2 = 0 ∧ 8 < 2 ^ USIZE_BITS
    ∧ 1 ≤ PointerValuePairSlice.max_value 2
    ∧ ∃ s, PointerValuePairSlice.new_slice 2 (8, 3) 1 = .ok s
        ∧ PointerValuePairSlice.ptr 2 s = (8, 3)
        ∧ PointerValuePairSlice.value 2 s = 1 :=
  ⟨by decide, by decide, by decide, by decide,
    (slice_roundtrip 2 8 3 1 (by decide) (by decide) (by decide) (by decide)).1⟩

/-! ## C5: the zero-capacity (alignment 1) case -/

/-- C5: for an alignment-1 pointee (`k = 0`, e.g. a zero-sized or
byte-aligned type), `available_bits = 0` and construction succeeds exactly
for value `0`: any nonzero value fails. -/
theorem alignment_one_zero_capacity (p v : Nat) :
    alignment 0 = 1
    ∧ PointerValuePair.available_bits 0 = 0
    ∧ ((∃ s, PointerValuePair.new 0 p v = .ok s) ↔ v = 0) := by
  refine ⟨rfl, rfl, ?_⟩
  simp only [PointerValuePair.new]
  have hb : align_bits 0 = 0 := rfl
  by_cases h : v ≤ align_bits 0
  · have hv0 : v = 0 := by omega
    simp [h, hv0]
  · have hv0 : ¬ v = 0 := by omega
    simp [h, hv0]

/-! ## The borrow-or-own container (src/cow.rs) -/

/-- `const BORROWED: usize = 0` -/
def BORROWED : Nat := 0

/-- `const OWNED: usize = 1` -/
def OWNED : Nat := 1

/-- `Cow<'a, T>`: a `repr(transparent)` wrapper around a
`PointerValuePair<T>` whose stored value is `BORROWED` or `OWNED`. -/
structure Cow where
  inner : PointerValuePair
deriving DecidableEq, Repr

/-- `Cow<'a, [T]>`: the slice specialization, wrapping a
`PointerValuePair<[T]>`. -/
structure CowSlice where
  inner : PointerValuePairSlice
deriving DecidableEq, Repr

/-- Event trace of the heap effects of a sequence of container operations:
how many times `T::clone` ran, which heap allocations were created
(`Box::new`), and which were deallocated (a `Box` being dropped, which also
runs the boxed value's destructor). -/
structure Trace where
  clones : Nat
  allocs : List Nat
  deallocs : List Nat
deriving DecidableEq, Repr

/-- Sequential composition of two event traces. -/
def Trace.seq (t u : Trace) : Trace :=
  ⟨t.clones + u.clones, t.allocs ++ u.allocs, t.deallocs ++ u.deallocs⟩

namespace Cow

/-- `Cow::borrowed(v)`: wraps the reference's address with value `BORROWED`. -/
def borrowed (k : Nat) (refAddr : Nat) : Except PanicInfo Cow :=
  (PointerValuePair.new k refAddr BORROWED).map Cow.mk

/-- `Cow::owned(v)`: wraps the address obtained from `Box::into_raw` with
value `OWNED`. -/
def owned (k : Nat) (boxAddr : Nat) : Except PanicInfo Cow :=
  (PointerValuePair.new k boxAddr OWNED).map Cow.mk

/-- `Cow::borrowed_slice(v)`: slice analogue of `borrowed`. -/
def borrowed_slice (k : Nat) (refPtr : Nat × Nat) : Except PanicInfo CowSlice :=
  (PointerValuePairSlice.new_slice k refPtr BORROWED).map CowSlice.mk

/-- `Cow::owned_slice(v)`: slice analogue of `owned`. -/
def owned_slice (k : Nat) (boxPtr : Nat × Nat) : Except PanicInfo CowSlice :=
  (PointerValuePairSlice.new_slice k boxPtr OWNED).map CowSlice.mk

/-- `self.inner.value()` as used throughout `cow.rs`. -/
def value (k : Nat) (c : Cow) : Nat := PointerValuePair.value k c.inner

/-- `self.inner.ptr()` as used throughout `cow.rs`. -/
def ptr (k : Nat) (c : Cow) : Nat := PointerValuePair.ptr k c.inner

/-- `impl Drop for Cow`: if the stored value is `OWNED`, drop the `Box`
rebuilt from the stored pointer (one deallocation); otherwise do nothing. -/
def dropTrace (k : Nat) (c : Cow) : Trace :=
  if value k c = OWNED then ⟨0, [], [ptr k c]⟩ else ⟨0, [], []⟩

/-- `Cow::into_owned(self) -> Box<T>`, with the allocator `alloc` and the
allocation counter `next` made explicit. Returns the address of the
resulting `Box`, the new counter, and the trace of heap events.

If the value is `OWNED`, the existing box is rebuilt from the stored pointer
and `mem::forget(self)` suppresses the destructor: no clone, no allocation,
no deallocation. Otherwise the referent is cloned into a fresh box
(`Box::new(self.deref().clone())`) and `self` — borrowed, so its `Drop` is a
no-op — is dropped at the end of the call. -/
def into_owned (k : Nat) (alloc : Nat → Nat) (c : Cow) (next : Nat) :
    Nat × Nat × Trace :=
  if value k c = OWNED then
    (ptr k c, next, ⟨0, [], []⟩)
  else
    (alloc next, next + 1, Trace.seq ⟨1, [alloc next], []⟩ (dropTrace k c))

/-- `Cow::into_owned_cow(self) -> Cow<'b, T>`.

If the value is `OWNED`, the `inner` pair (tag and address) is moved into
the result verbatim and `mem::forget(self)` suppresses the source's
destructor. Otherwise it is `Cow::owned(Box::new(self.deref().clone()))`
(which goes through `PointerValuePair::new` and can panic), with the
borrowed `self` dropped at the end of the call. -/
def into_owned_cow (k : Nat) (alloc : Nat → Nat) (c : Cow) (next : Nat) :
    Except PanicInfo (Cow × Nat × Trace) :=
  if value k c = OWNED then
    .ok (c, next, ⟨0, [], []⟩)
  else
    match owned k (alloc next) with
    | .ok c2 => .ok (c2, next + 1, Trace.seq ⟨1, [alloc next], []⟩ (dropTrace k c))
    | .error e => .error e

end Cow

/-- A client program over one container: destroy it now, convert it to a
`Box` and later destroy that box, or convert it to an owned container and
continue operating on the result. -/
inductive CowProg
  | dropIt
  | intoOwned
  | intoOwnedCow (rest : CowProg)

/-- Run a client program on a container, collecting the heap-event trace.
`.intoOwned` also accounts for the eventual destruction of the returned
`Box` (its single deallocation). -/
def runProg (k : Nat) (alloc : Nat → Nat) : CowProg → Cow → Nat → Except PanicInfo Trace
  | .dropIt, c, _ => .ok (Cow.dropTrace k c)
  | .intoOwned, c, next =>
    .ok (Trace.seq (Cow.into_owned k alloc c next).2.2
      ⟨0, [], [(Cow.into_owned k alloc c next).1]⟩)
  | .intoOwnedCow p, c, next =>
    match Cow.into_owned_cow k alloc c next with
    | .ok r =>
      match runProg k alloc p r.1 r.2.1 with
      | .ok t => .ok (Trace.seq r.2.2 t)
      | .error e => .error e
    | .error e => .error e

/-! ## Shared facts about the container operations -/

/-- A container in the `BORROWED` state is not in the `OWNED` state. -/
theorem value_borrowed_ne_owned (k : Nat) (c : Cow) (hbor : Cow.value k c = BORROWED) :
    ¬ Cow.value k c = OWNED := by
  rw [hbor]
  decide

/-- `into_owned_cow` on a borrowed container: one clone, one fresh
allocation, and the result is the owned container over the fresh box. -/
theorem into_owned_cow_borrowed (k : Nat) (alloc : Nat → Nat) (c : Cow) (next : Nat)
    (hbor : Cow.value k c = BORROWED) (hk1 : 1 ≤ k) (hk64 : k ≤ USIZE_BITS)
    (hal : alloc next % alignment k = 0) (halt : alloc next < 2 ^ USIZE_BITS) :
    Cow.into_owned_cow k alloc c next
      = .ok (⟨⟨alloc next ||| 1⟩⟩, next + 1, ⟨1, [alloc next], []⟩)
    ∧ Cow.value k ⟨⟨alloc next ||| 1⟩⟩ = OWNED
    ∧ Cow.ptr k ⟨⟨alloc next ||| 1⟩⟩ = alloc next := by
  have hov := value_borrowed_ne_owned k c hbor
  have h2 : (2:Nat) ≤ 2 ^ k := by
    calc (2:Nat) = 2 ^ 1 := rfl
    _ ≤ 2 ^ k := Nat.pow_le_pow_right (by norm_num) hk1
  have hle : OWNED ≤ align_bits k := by
    simp only [OWNED, align_bits, alignment]
    omega
  have hok : PointerValuePair.new k (alloc next) OWNED = .ok ⟨alloc next ||| 1⟩ := by
    simp only [PointerValuePair.new]
    rw [if_pos hle]
    rfl
  refine ⟨?_, ?_, ?_⟩
  · simp [Cow.into_owned_cow, hov, Cow.owned, hok, Cow.dropTrace, Trace.seq, Except.map]
  · have := value_pack k (alloc next) 1 hal (by omega)
    simpa [Cow.value, OWNED] using this
  · have := ptr_pack k (alloc next) 1 hk64 hal halt (by omega)
    simpa [Cow.ptr] using this

/-- A container in the `OWNED` state stays on the owned fast path for its
whole remaining life: every client program succeeds, performs no clone and
no allocation, and deallocates the container's single heap allocation
exactly once. -/
theorem runProg_owned (k : Nat) (alloc : Nat → Nat) (p : CowProg) :
    ∀ (c : Cow) (next : Nat), Cow.value k c = OWNED →
      runProg k alloc p c next = .ok ⟨0, [], [Cow.ptr k c]⟩ := by
  induction p with
  | dropIt =>
    intro c next hov
    simp [runProg, Cow.dropTrace, hov]
  | intoOwned =>
    intro c next hov
    simp [runProg, Cow.into_owned, hov, Trace.seq]
  | intoOwnedCow p ih =>
    intro c next hov
    simp [runProg, Cow.into_owned_cow, hov, ih c next hov, Trace.seq]

/-- A container in the `BORROWED` state: every client program succeeds and
every address it ever deallocates came out of the allocator — never the
borrowed referent. -/
theorem runProg_borrowed (k : Nat) (alloc : Nat → Nat) (p : CowProg) (c : Cow) (next : Nat)
    (hbor : Cow.value k c = BORROWED) (hk1 : 1 ≤ k) (hk64 : k ≤ USIZE_BITS)
    (hal : ∀ i, alloc i % alignment k = 0) (halt : ∀ i, alloc i < 2 ^ USIZE_BITS) :
    ∃ t, runProg k alloc p c next = .ok t
      ∧ ∀ x ∈ t.deallocs, ∃ i, x = alloc i := by
  have hov := value_borrowed_ne_owned k c hbor
  cases p with
  | dropIt =>
    refine ⟨⟨0, [], []⟩, ?_, ?_⟩
    · simp [runProg, Cow.dropTrace, hov]
    · simp
  | intoOwned =>
    refine ⟨⟨1, [alloc next], [alloc next]⟩, ?_, ?_⟩
    · simp [runProg, Cow.into_owned, hov, Cow.dropTrace, Trace.seq]
    · intro x hx
      simp only [List.mem_singleton] at hx
      exact ⟨next, hx⟩
  | intoOwnedCow q =>
    obtain ⟨heq, hval, hptr⟩ :=
      into_owned_cow_borrowed k alloc c next hbor hk1 hk64 (hal next) (halt next)
    have hrun := runProg_owned k alloc q ⟨⟨alloc next ||| 1⟩⟩ (next + 1) hval
    refine ⟨⟨1, [alloc next], [alloc next]⟩, ?_, ?_⟩
    · simp [runProg, heq, hrun, hptr, Trace.seq]
    · intro x hx
      simp only [List.mem_singleton] at hx
      exact ⟨next, hx⟩

/-! ## C6: `into_owned` (the `Box` conversion) -/

/-- C6: `into_owned` on an `OWNED` container performs zero clones and
transfers the existing heap allocation directly to the caller (same address,
no allocator activity, the source's destructor disarmed), and once the
returned box is itself destroyed the value's destructor has run exactly once
overall; on a `BORROWED` container it performs exactly one clone into one
fresh heap allocation, deallocates nothing itself, and destroying the clone
never touches the original referent `a`. -/
theorem into_owned_spec (k : Nat) (alloc : Nat → Nat) (c : Cow) (next a : Nat) :
    (Cow.value k c = OWNED → Cow.ptr k c = a →
      Cow.into_owned k alloc c next = (a, next, ⟨0, [], []⟩)
      ∧ (Trace.seq (Cow.into_owned k alloc c next).2.2
          ⟨0, [], [(Cow.into_owned k alloc c next).1]⟩).deallocs = [a])
    ∧ (Cow.value k c = BORROWED →
      (Cow.into_owned k alloc c next).2.2.clones = 1
      ∧ (Cow.into_owned k alloc c next).1 = alloc next
      ∧ (Cow.into_owned k alloc c next).2.2.allocs = [alloc next]
      ∧ (Cow.into_owned k alloc c next).2.2.deallocs = []
      ∧ (alloc next ≠ a →
          a ∉ (Trace.seq (Cow.into_owned k alloc c next).2.2
              ⟨0, [], [(Cow.into_owned k alloc c next).1]⟩).deallocs)) := by
  constructor
  · intro hov hptr
    simp [Cow.into_owned, hov, hptr, Trace.seq]
  · intro hbor
    have hov := value_borrowed_ne_owned k c hbor
    refine ⟨?_, ?_, ?_, ?_, ?_⟩
    · simp [Cow.into_owned, hov, Cow.dropTrace, Trace.seq]
    · simp [Cow.into_owned, hov]
    · simp [Cow.into_owned, hov, Cow.dropTrace, Trace.seq]
    · simp [Cow.into_owned, hov, Cow.dropTrace, Trace.seq]
    · intro hne hmem
      simp [Cow.into_owned, hov, Cow.dropTrace, Trace.seq] at hmem
      exact hne hmem.symm

/-- Witness for C6 at concrete inputs: `k = 1`; the owned container
`⟨⟨17⟩⟩` (address 16, value `OWNED`) and the borrowed container `⟨⟨8⟩⟩`. -/
theorem into_owned_spec_witness :
    (Cow.value 1 (⟨⟨17⟩⟩ : Cow) = OWNED ∧ Cow.ptr 1 (⟨⟨17⟩⟩ : Cow) = 16
      ∧ Cow.into_owned 1 (fun _ => 256) ⟨⟨17⟩⟩ 0 = (16, 0, ⟨0, [], []⟩))
    ∧ (Cow.value 1 (⟨⟨8⟩⟩ : Cow) = BORROWED
      ∧ (Cow.into_owned 1 (fun _ => 256) ⟨⟨8⟩⟩ 0).2.2.clones = 1) :=
  ⟨⟨by decide, by decide,
      ((into_owned_spec 1 (fun _ => 256) ⟨⟨17⟩⟩ 0 16).1 (by decide) (by decide)).1⟩,
    ⟨by decide, ((into_owned_spec 1 (fun _ => 256) ⟨⟨8⟩⟩ 0 16).2 (by decide)).1⟩⟩

/-! ## C7: `into_owned_cow` (the container conversion) -/

/-- C7: `into_owned_cow` on an `OWNED` container transfers the tag and
address verbatim into the result (the result is the same pair), with zero
clones and the source's destructor disarmed (the operation deallocates
nothing); on a `BORROWED` container it performs one clone into one fresh
allocation — exactly as `into_owned` does — and wraps the result as `OWNED`,
so the resulting container is in the `OWNED` state either way. -/
theorem into_owned_cow_spec (k : Nat) (alloc : Nat → Nat) (c : Cow) (next : Nat) :
    (Cow.value k c = OWNED →
      Cow.into_owned_cow k alloc c next = .ok (c, next, ⟨0, [], []⟩))
    ∧ (Cow.value k c = BORROWED → 1 ≤ k → k ≤ USIZE_BITS →
        alloc next % alignment k = 0 → alloc next < 2 ^ USIZE_BITS →
        ∃ c2, Cow.into_owned_cow k alloc c next
            = .ok (c2, next + 1, ⟨1, [alloc next], []⟩)
          ∧ Cow.value k c2 = OWNED ∧ Cow.ptr k c2 = alloc next) := by
  constructor
  · intro hov
    simp [Cow.into_owned_cow, hov]
  · intro hbor hk1 hk64 hal halt
    obtain ⟨heq, hval, hptr⟩ := into_owned_cow_borrowed k alloc c next hbor hk1 hk64 hal halt
    exact ⟨⟨⟨alloc next ||| 1⟩⟩, heq, hval, hptr⟩

/-- Witness for C7 at concrete inputs: `k = 1`; the owned container
`⟨⟨17⟩⟩` and the borrowed container `⟨⟨8⟩⟩` with allocator constantly
returning address 256. -/
theorem into_owned_cow_spec_witness :
    (Cow.value 1 (⟨⟨17⟩⟩ : Cow) = OWNED
      ∧ Cow.into_owned_cow 1 (fun _ => 256) ⟨⟨17⟩⟩ 0 = .ok (⟨⟨17⟩⟩, 0, ⟨0, [], []⟩))
    ∧ (Cow.value 1 (⟨⟨8⟩⟩ : Cow) = BORROWED ∧ 256 % alignment 1 = 0
      ∧ ∃ c2, Cow.into_owned_cow 1 (fun _ => 256) ⟨⟨8⟩⟩ 0
            = .ok (c2, 1, ⟨1, [256], []⟩)
          ∧ Cow.value 1 c2 = OWNED ∧ Cow.ptr 1 c2 = 256) :=
  ⟨⟨by decide, (into_owned_cow_spec 1 (fun _ => 256) ⟨⟨17⟩⟩ 0).1 (by decide)⟩,
    ⟨by decide, by decide,
      (into_owned_cow_spec 1 (fun _ => 256) ⟨⟨8⟩⟩ 0).2 (by decide) (by decide)
        (by decide) (by decide) (by decide)⟩⟩

/-! ## C8: exactly-once deallocation -/

/-- C8: across any client program over a container (conversions and
destruction, with the eventual destruction of any extracted box included),
an `OWNED` container's heap allocation is deallocated exactly once — the
whole-life trace of deallocations is precisely `[a]` — and never a second
time by a source whose ownership was transferred; a `BORROWED` container
never deallocates its referent, and its plain destruction performs no
deallocation at all. -/
theorem dealloc_exactly_once (k : Nat) (alloc : Nat → Nat) (p : CowProg) (c : Cow)
    (next a : Nat) :
    (Cow.value k c = OWNED → Cow.ptr k c = a →
      runProg k alloc p c next = .ok ⟨0, [], [a]⟩)
    ∧ (Cow.value k c = BORROWED → 1 ≤ k → k ≤ USIZE_BITS →
        (∀ i, alloc i % alignment k = 0) → (∀ i, alloc i < 2 ^ USIZE_BITS) →
        (∀ i, alloc i ≠ a) →
        ∃ t, runProg k alloc p c next = .ok t ∧ a ∉ t.deallocs)
    ∧ (Cow.value k c = BORROWED → Cow.dropTrace k c = ⟨0, [], []⟩) := by
  refine ⟨?_, ?_, ?_⟩
  · intro hov hptr
    rw [runProg_owned k alloc p c next hov, hptr]
  · intro hbor hk1 hk64 hal halt hne
    obtain ⟨t, ht, hd⟩ := runProg_borrowed k alloc p c next hbor hk1 hk64 hal halt
    refine ⟨t, ht, fun hmem => ?_⟩
    obtain ⟨i, hi⟩ := hd a hmem
    exact hne i hi.symm
  · intro hbor
    have hov := value_borrowed_ne_owned k c hbor
    simp [Cow.dropTrace, hov]

/-- Witness for C8 at concrete inputs: `k = 1`, the program that converts to
an owned container and then destroys it, run on the owned container `⟨⟨17⟩⟩`
(allocation at 16) and on the borrowed container `⟨⟨8⟩⟩` (referent at 8). -/
theorem dealloc_exactly_once_witness :
    (Cow.value 1 (⟨⟨17⟩⟩ : Cow) = OWNED ∧ Cow.ptr 1 (⟨⟨17⟩⟩ : Cow) = 16
      ∧ runProg 1 (fun _ => 256) (.intoOwnedCow .dropIt) ⟨⟨17⟩⟩ 0 = .ok ⟨0, [], [16]⟩)
    ∧ (Cow.value 1 (⟨⟨8⟩⟩ : Cow) = BORROWED
      ∧ ∃ t, runProg 1 (fun _ => 256) (.intoOwnedCow .dropIt) ⟨⟨8⟩⟩ 0 = .ok t
          ∧ 8 ∉ t.deallocs) :=
  ⟨⟨by decide, by decide,
      (dealloc_exactly_once 1 (fun _ => 256) (.intoOwnedCow .dropIt) ⟨⟨17⟩⟩ 0 16).1
        (by decide) (by decide)⟩,
    ⟨by decide,
      (dealloc_exactly_once 1 (fun _ => 256) (.intoOwnedCow .dropIt) ⟨⟨8⟩⟩ 0 8).2.1
        (by decide) (by decide) (by decide) (fun _ => by decide) (fun _ => by decide)
        (fun _ => by decide)⟩⟩

/-! ## C10: owned construction for alignment-1 pointees -/

/-- C10: for an alignment-1 pointee (`k = 0`, e.g. `u8` or a zero-sized
type), constructing the container in the `Owned` state — `Cow::owned`, or
`Cow::owned_slice` for element alignment 1 — always panics, because the
`OWNED` tag `1` exceeds `max_value = 0`; borrowed construction (tag
`BORROWED = 0`) succeeds, so the container cannot hold owned values of
byte-aligned pointees. -/
theorem owned_alignment_one_panics (a len : Nat) :
    Cow.owned 0 a = .error ⟨PointerValuePair.available_bits 0, OWNED⟩
    ∧ Cow.owned_slice 0 (a, len) = .error ⟨PointerValuePairSlice.available_bits 0, OWNED⟩
    ∧ (∃ c, Cow.borrowed 0 a = .ok c)
    ∧ PointerValuePair.available_bits 0 = 0
    ∧ OWNED > PointerValuePair.max_value 0 := by
  have h : ¬ (OWNED ≤ align_bits 0) := by decide
  have h0 : BORROWED ≤ align_bits 0 := by decide
  refine ⟨?_, ?_, ⟨⟨⟨a ||| BORROWED⟩⟩, ?_⟩, rfl, by decide⟩
  · simp [Cow.owned, PointerValuePair.new, h, Except.map]
  · simp [Cow.owned_slice, PointerValuePairSlice.new_slice, h, Except.map]
  · simp [Cow.borrowed, PointerValuePair.new, h0, Except.map]
